import Mathlib

/-!
Shallow embedding of the grain-size measurement engine of AutoGrain.py
(class GrainAnalyzerApp). Floating-point arithmetic of the source is
modelled over the real numbers; Python integer arithmetic is modelled on
Nat and Int with truncating division. The OpenCV image transforms and the
contour extraction are external library calls, so the per-circle contour
count is an input of the sampler model, entering the running totals
exactly as the counts do in the source loop.
-/

/-- Hall-Petch constants of one entry of materials_db: s0 is the friction
stress in MPa, k the locking parameter in MPa times sqrt mm. -/
structure MaterialProps where
  s0 : ℝ
  k : ℝ

/-- The materials_db dictionary of the source (lines 44-50) as a lookup
from material name to Hall-Petch constants; a name that is not a key
yields none (a KeyError in the source). -/
noncomputable def materials_db (name : String) : Option MaterialProps :=
  if name = "Steel (Low Carbon)" then some ⟨70, 23⟩
  else if name = "Aluminum (1100-O Pure)" then some ⟨15, 2.2⟩
  else if name = "Titanium (CP Grade 2)" then some ⟨170, 12⟩
  else if name = "Inconel 718 (Sol. Ann.)" then some ⟨350, 24⟩
  else if name = "Brass (70/30 Cartridge)" then some ⟨70, 12⟩
  else none

/-- calculate_astm (lines 405-413): the ASTM E112 grain size number,
0 by convention for a nonpositive mean intercept. -/
noncomputable def calculate_astm (mean_intercept_um : ℝ) : ℝ :=
  if mean_intercept_um ≤ 0 then 0
  else -6.643856 * Real.logb 10 (mean_intercept_um / 1000.0) - 3.288

/-- The Hall-Petch computation of analyze_grains (lines 381-384): the
ZeroDivisionError raised by the Python expression 0.0 ** -0.5 is caught
and turned into the value 0. -/
noncomputable def yield_strength (s0 k grain_d_mm : ℝ) : ℝ :=
  if grain_d_mm = 0 then 0 else s0 + k * grain_d_mm ^ (-0.5 : ℝ)

/-- avg_intercept_px = total_circumference_px / total_intercepts (line 362). -/
noncomputable def avg_intercept_px (total_circumference_px : ℝ)
    (total_intercepts : ℕ) : ℝ :=
  total_circumference_px / total_intercepts

/-- avg_grain_intercept_um = avg_intercept_px / scale_factor (line 366). -/
noncomputable def avg_grain_intercept_um (total_circumference_px : ℝ)
    (total_intercepts : ℕ) (scale_factor : ℝ) : ℝ :=
  avg_intercept_px total_circumference_px total_intercepts / scale_factor

/-- d_mm = avg_grain_intercept_um / 1000.0 (line 370). -/
noncomputable def d_mm (total_circumference_px : ℝ) (total_intercepts : ℕ)
    (scale_factor : ℝ) : ℝ :=
  avg_grain_intercept_um total_circumference_px total_intercepts scale_factor / 1000.0

/-- The typed failures of an analysis run: the pixel-scale validation at
lines 303-308, the zero-intercept early return at lines 356-359, and the
KeyError of the dictionary lookup at line 377. -/
inductive AnalysisError where
  | invalidScale
  | noBoundariesDetected
  | unknownMaterial

/-- The report produced by a successful analysis run (lines 386-400). -/
structure AnalysisResult where
  interceptCount : ℕ
  meanLinealInterceptMicrons : ℝ
  grainDiameterMM : ℝ
  astmGrainNumber : ℝ
  frictionStress : ℝ
  lockingParameter : ℝ
  yieldStrengthMPa : ℝ

/-- The metrics phase of analyze_grains (lines 355-400): the zero-intercept
check, the conversion chain, the material lookup, the Hall-Petch value and
the ASTM number of the report, in source order. -/
noncomputable def analysisMetrics (total_intercepts : ℕ)
    (total_circumference_px scale_factor : ℝ) (material : String) :
    Except AnalysisError AnalysisResult :=
  if total_intercepts = 0 then .error .noBoundariesDetected
  else
    match materials_db material with
    | none => .error .unknownMaterial
    | some mat =>
        .ok
          { interceptCount := total_intercepts
            meanLinealInterceptMicrons :=
              avg_grain_intercept_um total_circumference_px total_intercepts scale_factor
            grainDiameterMM := d_mm total_circumference_px total_intercepts scale_factor
            astmGrainNumber :=
              calculate_astm
                (avg_grain_intercept_um total_circumference_px total_intercepts scale_factor)
            frictionStress := mat.s0
            lockingParameter := mat.k
            yieldStrengthMPa :=
              yield_strength mat.s0 mat.k
                (d_mm total_circumference_px total_intercepts scale_factor) }

/-- radius = int(min_dim * 0.35) (lines 327-328): 0.35 is 7/20 and Python
int() truncation of the nonnegative product is floor division. -/
def radius (h w : ℕ) : ℕ := 7 * min h w / 20

/-- The circle placement of one loop iteration (lines 334-338): the center
jittered by (jx, jy) from the image center is kept only when the circle
stays inside the image, otherwise the exact image center is used; the
radius is never altered. -/
def circle_center (h w : ℕ) (jx jy : ℤ) : ℤ × ℤ :=
  if (w : ℤ) / 2 + jx - (radius h w : ℤ) < 0 ∨
      (w : ℤ) / 2 + jx + (radius h w : ℤ) > (w : ℤ) ∨
      (h : ℤ) / 2 + jy - (radius h w : ℤ) < 0 ∨
      (h : ℤ) / 2 + jy + (radius h w : ℤ) > (h : ℤ) then
    ((w : ℤ) / 2, (h : ℤ) / 2)
  else ((w : ℤ) / 2 + jx, (h : ℤ) / 2 + jy)

/-- One sampling circle of a run: its random jitter offsets and the number
of connected components that cv2.findContours reports for the intersection
of its ring with the boundary mask (line 346). -/
structure CircleSample where
  jx : ℤ
  jy : ℤ
  n : ℕ

/-- One iteration of the sampling loop (lines 333-348): the component count
is added to the intercept total and 2 * pi * radius to the circumference
total, independent of the chosen center. -/
noncomputable def sampleStep (h w : ℕ) (acc : ℕ × ℝ) (s : CircleSample) : ℕ × ℝ :=
  (acc.1 + s.n, acc.2 + 2 * Real.pi * (radius h w : ℝ))

/-- The totals (total_intercepts, total_circumference_px) accumulated by the
sampling loop, both starting at 0 (lines 330-331). -/
noncomputable def runSampler (h w : ℕ) (samples : List CircleSample) : ℕ × ℝ :=
  samples.foldl (sampleStep h w) (0, 0)

/-- analyze_grains (lines 298-403) without its GUI glue: the pixel-scale
validation, then the sampler totals feeding the metrics phase. -/
noncomputable def analyze_grains (h w : ℕ) (samples : List CircleSample)
    (scale_factor : ℝ) (material : String) : Except AnalysisError AnalysisResult :=
  if scale_factor ≤ 0 then .error .invalidScale
  else
    analysisMetrics (runSampler h w samples).1 (runSampler h w samples).2
      scale_factor material

/-- Euclidean distance of the two clicked points in canvas pixels (line 269). -/
noncomputable def dist_canvas_px (p1 p2 : ℝ × ℝ) : ℝ :=
  Real.sqrt ((p2.1 - p1.1) ^ 2 + (p2.2 - p1.2) ^ 2)

/-- The scale computation of _finalize_scale_measurement (lines 261-287):
the canvas distance is divided by the display-to-source ratio, with the
ZeroDivisionError fallback taking the canvas distance unchanged, and the
result is divided by the known physical length in microns. The source
additionally rounds the value to 4 decimals purely for display in the
entry widget. -/
noncomputable def finalize_scale_measurement (p1 p2 : ℝ × ℝ)
    (disp_to_src length_microns : ℝ) : ℝ :=
  (if disp_to_src = 0 then dist_canvas_px p1 p2
   else dist_canvas_px p1 p2 / disp_to_src) / length_microns

/-- The sampler totals in closed form: the intercept total is the sum of
the per-circle counts, and every circle contributes exactly
2 * pi * radius to the circumference total. -/
theorem runSampler_totals (h w : ℕ) (samples : List CircleSample) :
    (runSampler h w samples).1 = (samples.map CircleSample.n).sum ∧
    (runSampler h w samples).2 =
      (samples.length : ℝ) * (2 * Real.pi * (radius h w : ℝ)) := by
  have main : ∀ (t : List CircleSample) (acc : ℕ × ℝ),
      (t.foldl (sampleStep h w) acc).1 = acc.1 + (t.map CircleSample.n).sum ∧
      (t.foldl (sampleStep h w) acc).2 =
        acc.2 + (t.length : ℝ) * (2 * Real.pi * (radius h w : ℝ)) := by
    intro t
    induction t with
    | nil => intro acc; simp
    | cons s rest ih =>
        intro acc
        obtain ⟨h1, h2⟩ := ih (sampleStep h w acc s)
        refine ⟨?_, ?_⟩
        · rw [List.foldl_cons, h1]
          simp [sampleStep]
          omega
        · rw [List.foldl_cons, h2]
          simp only [sampleStep, List.length_cons]
          push_cast
          ring
  have := main samples (0, 0)
  simpa [runSampler] using this

/-- Claim C3: for every image and every jitter choice, the circle actually
used for sampling lies entirely within the image bounds, and whenever the
jittered placement would leave the bounds the center is replaced by the
exact image center while the radius is unchanged. -/
theorem circle_used_in_bounds (h w : ℕ) (jx jy : ℤ) :
    (0 ≤ (circle_center h w jx jy).1 - (radius h w : ℤ) ∧
      (circle_center h w jx jy).1 + (radius h w : ℤ) ≤ (w : ℤ) ∧
      0 ≤ (circle_center h w jx jy).2 - (radius h w : ℤ) ∧
      (circle_center h w jx jy).2 + (radius h w : ℤ) ≤ (h : ℤ)) ∧
    (((w : ℤ) / 2 + jx - (radius h w : ℤ) < 0 ∨
        (w : ℤ) / 2 + jx + (radius h w : ℤ) > (w : ℤ) ∨
        (h : ℤ) / 2 + jy - (radius h w : ℤ) < 0 ∨
        (h : ℤ) / 2 + jy + (radius h w : ℤ) > (h : ℤ)) →
      circle_center h w jx jy = ((w : ℤ) / 2, (h : ℤ) / 2)) := by
  have hrw : radius h w ≤ w / 2 := by
    unfold radius
    calc 7 * min h w / 20 ≤ 7 * w / 20 :=
          Nat.div_le_div_right (Nat.mul_le_mul_left 7 (min_le_right h w))
      _ ≤ w / 2 := by omega
  have hrh : radius h w ≤ h / 2 := by
    unfold radius
    calc 7 * min h w / 20 ≤ 7 * h / 20 :=
          Nat.div_le_div_right (Nat.mul_le_mul_left 7 (min_le_left h w))
      _ ≤ h / 2 := by omega
  unfold circle_center
  split_ifs with hcond
  · refine ⟨?_, fun _ => rfl⟩
    simp only
    omega
  · push_neg at hcond
    refine ⟨?_, fun hviol => absurd hviol ?_⟩
    · simp only
      omega
    · push_neg
      exact hcond

/-- Witness for claim C3 at a 10 by 10 image with a jitter that throws the
circle out of bounds: the fallback center (5, 5) is used and the circle of
radius 3 around it stays inside the image. -/
theorem circle_used_in_bounds_witness :
    (0 ≤ (circle_center 10 10 100 0).1 - (radius 10 10 : ℤ) ∧
      (circle_center 10 10 100 0).1 + (radius 10 10 : ℤ) ≤ (10 : ℤ) ∧
      0 ≤ (circle_center 10 10 100 0).2 - (radius 10 10 : ℤ) ∧
      (circle_center 10 10 100 0).2 + (radius 10 10 : ℤ) ≤ (10 : ℤ)) ∧
    circle_center 10 10 100 0 = (5, 5) :=
  ⟨(circle_used_in_bounds 10 10 100 0).1,
    (circle_used_in_bounds 10 10 100 0).2 (by decide)⟩

/-- Claim C4: for a positive mean lineal intercept the ASTM grain number is
exactly -6.643856 * log10(mean / 1000) - 3.288, and for a nonpositive one
it is 0 by convention. -/
theorem calculate_astm_spec (mean_intercept_um : ℝ) :
    (0 < mean_intercept_um →
      calculate_astm mean_intercept_um =
        -6.643856 * Real.logb 10 (mean_intercept_um / 1000) - 3.288) ∧
    (mean_intercept_um ≤ 0 → calculate_astm mean_intercept_um = 0) := by
  constructor
  · intro hm
    rw [calculate_astm, if_neg (not_le.mpr hm)]
    norm_num
  · intro hm
    rw [calculate_astm, if_pos hm]

/-- Witness for claim C4 at the inputs 50 and -1. -/
theorem calculate_astm_spec_witness :
    calculate_astm 50 = -6.643856 * Real.logb 10 (50 / 1000) - 3.288 ∧
    calculate_astm (-1) = 0 :=
  ⟨(calculate_astm_spec 50).1 (by norm_num),
    (calculate_astm_spec (-1)).2 (by norm_num)⟩

/-- Claim C5: for any material constants the yield strength is
s0 + k * d ^ (-0.5) for a positive grain diameter, and the computation for
a zero grain diameter is total and returns 0. -/
theorem yield_strength_spec (s0 k grain_d_mm : ℝ) (hd : 0 < grain_d_mm) :
    yield_strength s0 k grain_d_mm = s0 + k * grain_d_mm ^ (-0.5 : ℝ) ∧
    yield_strength s0 k 0 = 0 := by
  constructor
  · rw [yield_strength, if_neg (ne_of_gt hd)]
  · rw [yield_strength, if_pos rfl]

/-- Witness for claim C5 with the low-carbon steel constants at diameter 1. -/
theorem yield_strength_spec_witness :
    yield_strength 70 23 1 = 70 + 23 * (1 : ℝ) ^ (-0.5 : ℝ) ∧
    yield_strength 70 23 0 = 0 :=
  yield_strength_spec 70 23 1 one_pos

/-- Claim C8: with intercept count and circumference fixed and positive, the
mean lineal intercept in microns is strictly decreasing in the
pixels-per-micron calibration ratio. -/
theorem mean_intercept_strict_anti_in_scale (total_intercepts : ℕ)
    (total_circumference_px scale1 scale2 : ℝ) (hcount : 0 < total_intercepts)
    (hcirc : 0 < total_circumference_px) (hs1 : 0 < scale1) (h12 : scale1 < scale2) :
    avg_grain_intercept_um total_circumference_px total_intercepts scale2 <
      avg_grain_intercept_um total_circumference_px total_intercepts scale1 := by
  unfold avg_grain_intercept_um avg_intercept_px
  have hpx : 0 < total_circumference_px / (total_intercepts : ℝ) :=
    div_pos hcirc (by exact_mod_cast hcount)
  exact div_lt_div_of_pos_left hpx hs1 h12

/-- Witness for claim C8: circumference 10, one intercept, ratios 1 and 2. -/
theorem mean_intercept_strict_anti_in_scale_witness :
    avg_grain_intercept_um 10 1 2 < avg_grain_intercept_um 10 1 1 :=
  mean_intercept_strict_anti_in_scale 1 10 1 2 one_pos (by norm_num) one_pos one_lt_two

/-- A successful metrics phase always reports the quotient chain mean: the
mean lineal intercept field of any ok result equals
avg_grain_intercept_um of the totals. -/
theorem analysisMetrics_ok_mean (total_intercepts : ℕ)
    (total_circumference_px scale_factor : ℝ) (material : String)
    (r : AnalysisResult)
    (hok : analysisMetrics total_intercepts total_circumference_px scale_factor material =
      .ok r) :
    r.meanLinealInterceptMicrons =
      avg_grain_intercept_um total_circumference_px total_intercepts scale_factor := by
  unfold analysisMetrics at hok
  by_cases hc : total_intercepts = 0
  · rw [if_pos hc] at hok
    exact Except.noConfusion hok
  · rw [if_neg hc] at hok
    cases hmat : materials_db material with
    | none =>
        rw [hmat] at hok
        exact Except.noConfusion hok
    | some mat =>
        rw [hmat] at hok
        have heq := Except.ok.inj hok
        rw [← heq]

/-- Claim C2: a run whose five sampling circles find no intercept at all
ends in the NoBoundariesDetected failure and produces no result value. -/
theorem zero_intercepts_fail (h w : ℕ) (samples : List CircleSample)
    (scale_factor : ℝ) (material : String) (hscale : 0 < scale_factor)
    (_hlen : samples.length = 5)
    (hzero : (samples.map CircleSample.n).sum = 0) :
    analyze_grains h w samples scale_factor material =
      .error .noBoundariesDetected := by
  have hfst := (runSampler_totals h w samples).1
  unfold analyze_grains
  rw [if_neg (not_le.mpr hscale)]
  unfold analysisMetrics
  rw [if_pos (by rw [hfst, hzero])]

/-- Witness for claim C2: a run over five circles with zero counts each. -/
theorem zero_intercepts_fail_witness :
    analyze_grains 100 100 [⟨0, 0, 0⟩, ⟨1, 1, 0⟩, ⟨-1, 2, 0⟩, ⟨2, -2, 0⟩, ⟨0, 3, 0⟩]
      1 "Steel (Low Carbon)" = .error .noBoundariesDetected :=
  zero_intercepts_fail 100 100 _ 1 "Steel (Low Carbon)" one_pos rfl rfl

/-- Claim C9: a material name that is not a key of the table never yields a
result, and in a run that passed the scale check and found at least one
intercept the failure is precisely the unknown-material error. -/
theorem unknown_material_fail (h w : ℕ) (samples : List CircleSample)
    (scale_factor : ℝ) (material : String)
    (hmat : materials_db material = none) :
    (∀ r : AnalysisResult,
      analyze_grains h w samples scale_factor material ≠ .ok r) ∧
    (0 < scale_factor → (samples.map CircleSample.n).sum ≠ 0 →
      analyze_grains h w samples scale_factor material = .error .unknownMaterial) := by
  have hfst := (runSampler_totals h w samples).1
  constructor
  · intro r hok
    unfold analyze_grains at hok
    by_cases hs : scale_factor ≤ 0
    · rw [if_pos hs] at hok
      exact Except.noConfusion hok
    · rw [if_neg hs] at hok
      unfold analysisMetrics at hok
      by_cases hc : (runSampler h w samples).1 = 0
      · rw [if_pos hc] at hok
        exact Except.noConfusion hok
      · rw [if_neg hc, hmat] at hok
        exact Except.noConfusion hok
  · intro hscale hn
    unfold analyze_grains
    rw [if_neg (not_le.mpr hscale)]
    unfold analysisMetrics
    rw [if_neg (by rw [hfst]; exact hn), hmat]

/-- Witness for claim C9 at the unknown name Unobtainium, with one
intercept found and a valid scale. -/
theorem unknown_material_fail_witness :
    analyze_grains 100 100 [⟨0, 0, 1⟩, ⟨0, 0, 0⟩, ⟨0, 0, 0⟩, ⟨0, 0, 0⟩, ⟨0, 0, 0⟩]
      1 "Unobtainium" = .error .unknownMaterial :=
  (unknown_material_fail 100 100 _ 1 "Unobtainium" (by simp [materials_db])).2
    one_pos (by simp)

/-- Claim C10: the circumference total of a five-circle run is always
5 * 2 * pi * int(0.35 * min(h, w)) whatever the mask and the recentering
decisions, and the reported mean lineal intercept of two runs over the
same image agrees whenever their total intercept counts agree. -/
theorem circumference_constant (h w : ℕ) (s1 s2 : List CircleSample)
    (scale_factor : ℝ) (material : String)
    (hl1 : s1.length = 5) (hl2 : s2.length = 5)
    (hsum : (s1.map CircleSample.n).sum = (s2.map CircleSample.n).sum) :
    (runSampler h w s1).2 = 5 * (2 * Real.pi * (radius h w : ℝ)) ∧
    (∀ r1 r2 : AnalysisResult,
      analyze_grains h w s1 scale_factor material = .ok r1 →
      analyze_grains h w s2 scale_factor material = .ok r2 →
      r1.meanLinealInterceptMicrons = r2.meanLinealInterceptMicrons) := by
  obtain ⟨hf1, hs1⟩ := runSampler_totals h w s1
  obtain ⟨hf2, hs2⟩ := runSampler_totals h w s2
  constructor
  · rw [hs1, hl1]
    norm_num
  · intro r1 r2 h1 h2
    unfold analyze_grains at h1 h2
    by_cases hs : scale_factor ≤ 0
    · rw [if_pos hs] at h1
      exact Except.noConfusion h1
    · rw [if_neg hs] at h1 h2
      have m1 := analysisMetrics_ok_mean _ _ _ _ _ h1
      have m2 := analysisMetrics_ok_mean _ _ _ _ _ h2
      rw [m1, m2, hf1, hf2, hs1, hs2, hl1, hl2, hsum]

/-- Witness for claim C10: two five-circle runs with different per-circle
counts but equal totals have the constant circumference total. -/
theorem circumference_constant_witness :
    (runSampler 100 100 [⟨0, 0, 3⟩, ⟨0, 0, 0⟩, ⟨0, 0, 0⟩, ⟨0, 0, 0⟩, ⟨0, 0, 0⟩]).2 =
      5 * (2 * Real.pi * (radius 100 100 : ℝ)) :=
  (circumference_constant 100 100
    [⟨0, 0, 3⟩, ⟨0, 0, 0⟩, ⟨0, 0, 0⟩, ⟨0, 0, 0⟩, ⟨0, 0, 0⟩]
    [⟨0, 0, 1⟩, ⟨0, 0, 2⟩, ⟨0, 0, 0⟩, ⟨0, 0, 0⟩, ⟨0, 0, 0⟩]
    1 "Steel (Low Carbon)" rfl rfl rfl).1

/-- Claim C6: the calibrator divides the canvas distance by the
display-to-source ratio and then by the known length, treats a zero ratio
by taking the canvas distance as the source distance, and at canvas
distance 100, ratio 0.5 and known length 10 returns exactly 20. -/
theorem finalize_scale_spec (p1 p2 : ℝ × ℝ) (disp_to_src length_microns : ℝ) :
    (disp_to_src ≠ 0 →
      finalize_scale_measurement p1 p2 disp_to_src length_microns =
        dist_canvas_px p1 p2 / disp_to_src / length_microns) ∧
    (finalize_scale_measurement p1 p2 0 length_microns =
      dist_canvas_px p1 p2 / length_microns) ∧
    (dist_canvas_px p1 p2 = 100 →
      finalize_scale_measurement p1 p2 0.5 10 = 20) := by
  refine ⟨?_, ?_, ?_⟩
  · intro hr
    rw [finalize_scale_measurement, if_neg hr]
  · rw [finalize_scale_measurement, if_pos rfl]
  · intro hd
    rw [finalize_scale_measurement, if_neg (by norm_num), hd]
    norm_num

/-- Witness for claim C6: the points (0, 0) and (60, 80) lie at canvas
distance 100, and the computed scale is exactly 20 pixels per micron. -/
theorem finalize_scale_spec_witness :
    finalize_scale_measurement (0, 0) (60, 80) 0.5 10 = 20 := by
  have hd : dist_canvas_px (0, 0) (60, 80) = 100 := by
    unfold dist_canvas_px
    norm_num
    rw [show (10000 : ℝ) = 100 ^ 2 by norm_num]
    exact Real.sqrt_sq (by norm_num)
  exact (finalize_scale_spec (0, 0) (60, 80) 0.5 10).2.2 hd

/-- Rational lower bound on log base 10 of 20, reduced to a comparison of
integer powers. -/
theorem logb_twenty_lb : (1.3009 : ℝ) < Real.logb 10 20 := by
  rw [Real.lt_logb_iff_rpow_lt (by norm_num) (by norm_num)]
  have e1 : ((10 : ℝ) ^ (1.3009 : ℝ)) ^ (10000 : ℕ) = (10 : ℝ) ^ (13009 : ℕ) := by
    rw [← Real.rpow_natCast ((10 : ℝ) ^ (1.3009 : ℝ)) 10000,
      ← Real.rpow_mul (by norm_num), ← Real.rpow_natCast 10 13009]
    norm_num
  have key : ((10 : ℝ) ^ (1.3009 : ℝ)) ^ (10000 : ℕ) < (20 : ℝ) ^ (10000 : ℕ) := by
    rw [e1]
    norm_num
  exact lt_of_pow_lt_pow_left₀ 10000 (by norm_num) key

/-- Rational upper bound on log base 10 of 20, reduced to a comparison of
integer powers. -/
theorem logb_twenty_ub : Real.logb 10 20 < (1.3013 : ℝ) := by
  rw [Real.logb_lt_iff_lt_rpow (by norm_num) (by norm_num)]
  have e1 : ((10 : ℝ) ^ (1.3013 : ℝ)) ^ (10000 : ℕ) = (10 : ℝ) ^ (13013 : ℕ) := by
    rw [← Real.rpow_natCast ((10 : ℝ) ^ (1.3013 : ℝ)) 10000,
      ← Real.rpow_mul (by norm_num), ← Real.rpow_natCast 10 13013]
    norm_num
  have key : (20 : ℝ) ^ (10000 : ℕ) < ((10 : ℝ) ^ (1.3013 : ℝ)) ^ (10000 : ℕ) := by
    rw [e1]
    norm_num
  exact lt_of_pow_lt_pow_left₀ 10000 (Real.rpow_nonneg (by norm_num) _) key

/-- A real power with exponent -0.5 of a positive base is the reciprocal of
the square root, matching the Python expression d ** -0.5. -/
theorem rpow_neg_half_sqrt {x : ℝ} (hx : 0 < x) :
    x ^ (-0.5 : ℝ) = (Real.sqrt x)⁻¹ := by
  rw [show (-0.5 : ℝ) = -(1 / 2 : ℝ) by norm_num, Real.rpow_neg hx.le,
    Real.sqrt_eq_rpow]

/-- The Hall-Petch value of low-carbon steel at grain diameter 0.05 mm is
within 0.01 of 172.85 MPa. -/
theorem yield_steel_bound :
    |(70 + 23 * (0.05 : ℝ) ^ (-0.5 : ℝ)) - 172.85| < 0.01 := by
  rw [rpow_neg_half_sqrt (by norm_num), ← div_eq_mul_inv]
  have hs0 : (0 : ℝ) < Real.sqrt 0.05 := Real.sqrt_pos.mpr (by norm_num)
  have hlb : (0.22360679 : ℝ) < Real.sqrt 0.05 :=
    (Real.lt_sqrt (by norm_num)).mpr (by norm_num)
  have hub : Real.sqrt 0.05 < (0.2236068 : ℝ) :=
    (Real.sqrt_lt' (by norm_num)).mpr (by norm_num)
  have h1 : 23 / Real.sqrt 0.05 < 102.86 := by
    rw [div_lt_iff₀ hs0]
    nlinarith
  have h2 : (102.84 : ℝ) < 23 / Real.sqrt 0.05 := by
    rw [lt_div_iff₀ hs0]
    nlinarith
  rw [abs_lt]
  constructor <;> linarith

/-- The ASTM grain number at grain diameter 0.05 mm is within 0.01 of 5.35. -/
theorem astm_steel_bound :
    |(-6.643856 * Real.logb 10 (0.05 : ℝ) - 3.288) - 5.35| < 0.01 := by
  have h005 : Real.logb 10 (0.05 : ℝ) = -Real.logb 10 20 := by
    rw [show (0.05 : ℝ) = (20 : ℝ)⁻¹ by norm_num, Real.logb_inv]
  have hlb := logb_twenty_lb
  have hub := logb_twenty_ub
  rw [h005, abs_lt]
  constructor <;> nlinarith

/-- Claim C1: a run over low-carbon steel whose mean lineal intercept is
50 microns succeeds and reports grain diameter 0.05 mm, yield strength
70 + 23 * 0.05 ^ (-0.5), which lies within 0.01 of 172.85 MPa, and ASTM
grain number -6.643856 * log10(0.05) - 3.288, within 0.01 of 5.35. -/
theorem metrics_chain_steel (total_intercepts : ℕ)
    (total_circumference_px scale_factor : ℝ) (hcount : total_intercepts ≠ 0)
    (hmean : avg_grain_intercept_um total_circumference_px total_intercepts
      scale_factor = 50) :
    ∃ r : AnalysisResult,
      analysisMetrics total_intercepts total_circumference_px scale_factor
          "Steel (Low Carbon)" = .ok r ∧
      r.grainDiameterMM = 0.05 ∧
      r.yieldStrengthMPa = 70 + 23 * (0.05 : ℝ) ^ (-0.5 : ℝ) ∧
      |r.yieldStrengthMPa - 172.85| < 0.01 ∧
      r.astmGrainNumber = -6.643856 * Real.logb 10 (0.05 : ℝ) - 3.288 ∧
      |r.astmGrainNumber - 5.35| < 0.01 := by
  have hmat : materials_db "Steel (Low Carbon)" = some ⟨70, 23⟩ := by
    simp [materials_db]
  have hd : d_mm total_circumference_px total_intercepts scale_factor = 0.05 := by
    unfold d_mm
    rw [hmean]
    norm_num
  have hyv : yield_strength 70 23 (0.05 : ℝ) = 70 + 23 * (0.05 : ℝ) ^ (-0.5 : ℝ) := by
    unfold yield_strength
    rw [if_neg (by norm_num : ¬(0.05 : ℝ) = 0)]
  have hav : calculate_astm (50 : ℝ) = -6.643856 * Real.logb 10 (0.05 : ℝ) - 3.288 := by
    unfold calculate_astm
    rw [if_neg (by norm_num : ¬(50 : ℝ) ≤ 0)]
    norm_num
  unfold analysisMetrics
  rw [if_neg hcount, hmat]
  refine ⟨_, rfl, ?_, ?_, ?_, ?_, ?_⟩
  · exact hd
  · show yield_strength 70 23
      (d_mm total_circumference_px total_intercepts scale_factor) = _
    rw [hd, hyv]
  · show |yield_strength 70 23
      (d_mm total_circumference_px total_intercepts scale_factor) - 172.85| < 0.01
    rw [hd, hyv]
    exact yield_steel_bound
  · show calculate_astm (avg_grain_intercept_um total_circumference_px
      total_intercepts scale_factor) = _
    rw [hmean, hav]
  · show |calculate_astm (avg_grain_intercept_um total_circumference_px
      total_intercepts scale_factor) - 5.35| < 0.01
    rw [hmean, hav]
    exact astm_steel_bound

/-- Witness for claim C1: five intercepts over circumference 250 px at one
pixel per micron give a mean lineal intercept of exactly 50 microns. -/
theorem metrics_chain_steel_witness :
    ∃ r : AnalysisResult,
      analysisMetrics 5 250 1 "Steel (Low Carbon)" = .ok r ∧
      r.grainDiameterMM = 0.05 ∧
      r.yieldStrengthMPa = 70 + 23 * (0.05 : ℝ) ^ (-0.5 : ℝ) ∧
      |r.yieldStrengthMPa - 172.85| < 0.01 ∧
      r.astmGrainNumber = -6.643856 * Real.logb 10 (0.05 : ℝ) - 3.288 ∧
      |r.astmGrainNumber - 5.35| < 0.01 :=
  metrics_chain_steel 5 250 1 (by norm_num)
    (by unfold avg_grain_intercept_um avg_intercept_px; norm_num)

/-- Claim C7: over positive grain diameters the ASTM grain number computed
by the engine is strictly decreasing in the grain diameter, and for a
positive locking parameter the Hall-Petch yield strength is strictly
decreasing in the grain diameter. -/
theorem astm_and_yield_strict_anti (diam1 diam2 s0 k : ℝ)
    (hd1 : 0 < diam1) (hd : diam1 < diam2) (hk : 0 < k) :
    calculate_astm (1000 * diam2) < calculate_astm (1000 * diam1) ∧
    yield_strength s0 k diam2 < yield_strength s0 k diam1 := by
  have hd2 : 0 < diam2 := hd1.trans hd
  constructor
  · unfold calculate_astm
    rw [if_neg (by nlinarith : ¬(1000 * diam2 ≤ 0)),
      if_neg (by nlinarith : ¬(1000 * diam1 ≤ 0))]
    have e1 : (1000 : ℝ) * diam1 / 1000.0 = diam1 := by
      rw [show (1000.0 : ℝ) = 1000 from by norm_num]
      ring
    have e2 : (1000 : ℝ) * diam2 / 1000.0 = diam2 := by
      rw [show (1000.0 : ℝ) = 1000 from by norm_num]
      ring
    rw [e1, e2]
    have hlog : Real.logb 10 diam1 < Real.logb 10 diam2 :=
      Real.logb_lt_logb (by norm_num) hd1 hd
    nlinarith
  · unfold yield_strength
    rw [if_neg (ne_of_gt hd1), if_neg (ne_of_gt hd2)]
    rw [rpow_neg_half_sqrt hd1, rpow_neg_half_sqrt hd2]
    have hsq : Real.sqrt diam1 < Real.sqrt diam2 := Real.sqrt_lt_sqrt hd1.le hd
    have hs1 : 0 < Real.sqrt diam1 := Real.sqrt_pos.mpr hd1
    have hinv : (Real.sqrt diam2)⁻¹ < (Real.sqrt diam1)⁻¹ :=
      inv_strictAnti₀ hs1 hsq
    nlinarith

/-- Witness for claim C7 at grain diameters 1 mm and 4 mm with the
low-carbon steel constants. -/
theorem astm_and_yield_strict_anti_witness :
    calculate_astm (1000 * 4) < calculate_astm (1000 * 1) ∧
    yield_strength 70 23 4 < yield_strength 70 23 1 :=
  astm_and_yield_strict_anti 1 4 70 23 one_pos (by norm_num) (by norm_num)
